import Mathlib

/-!
Verification of the rendering/compositing engine of the assembly-line cover
generator (`src/app/render.py`, data model in `src/app/models.py`).

Python strings are embedded as `List Char` (`Str`), Python ints as `ℤ`/`ℕ`,
Python floats as `ℚ` where the property does not depend on rounding, and as an
explicit IEEE-754 binary64 model (`F64`, mantissa/exponent integers with
round-to-nearest-even) where it does.  Calls into external libraries
(PIL image operations, `numpy.linalg.solve`, `math.cos`/`sin`/`radians`/`sqrt`)
are not code of this repository; they are passed in as parameters (the `Ops`
record and explicit cosine/sine arguments), while every piece of control flow
and arithmetic written in `render.py` itself is embedded directly.
Fallible Python code (uncaught exceptions) is embedded with `Except Unit`.
-/

set_option autoImplicit false

abbrev Str := List Char

/-- Whitespace characters recognised by Python's `str.split()` / `str.strip()`
(ASCII subset: space, tab, newline, carriage return, vertical tab, form feed). -/
def isPySpace (c : Char) : Bool :=
  c == ' ' || c == '\t' || c == '\n' || c == '\r' || c == '\x0b' || c == '\x0c'

/-- Python `str.strip()`: drop leading and trailing whitespace. -/
def pyStrip (s : Str) : Str :=
  ((s.dropWhile isPySpace).reverse.dropWhile isPySpace).reverse

/-- Helper for `pySplit`: `cur` holds the current word reversed. -/
def pySplitAux : Str → Str → List Str
  | [], cur => if cur.isEmpty then [] else [cur.reverse]
  | c :: cs, cur =>
    if isPySpace c then
      if cur.isEmpty then pySplitAux cs [] else cur.reverse :: pySplitAux cs []
    else
      pySplitAux cs (c :: cur)

/-- Python `str.split()` with no argument: split on whitespace runs,
no empty words. -/
def pySplit (s : Str) : List Str := pySplitAux s []

/-- Python truthiness of an optional string (`None` and `""` are falsy). -/
def pyTruthyStr (s : Option Str) : Bool :=
  match s with
  | none => false
  | some t => !t.isEmpty

/-- Python truthiness of an optional int used as `x or w`
(`None` and `0` are falsy). -/
def pyTruthyInt (n : Option ℤ) : Bool :=
  match n with
  | none => false
  | some m => m != 0

/-- Association-list lookup modelling Python `dict.get(key)`. -/
def pyGet (m : List (Str × Str)) (k : Str) : Option Str :=
  (m.find? (fun p => p.1 == k)).map (·.2)

/- ----------------------------------------------------------------
IEEE-754 binary64 model for the Python float arithmetic whose rounding
matters: the `_resize_fit` size computation (`render.py` lines 91-133) and
the alpha channel `int(255 * max(0, min(opacity, 1)))` of the hex colour
parsers (`render.py` lines 320 and 422).
A float is a dyadic rational `m * 2^e`; every operation rounds the exact
result to 53 significant bits with round-to-nearest, ties-to-even, which
is exactly what CPython float division/multiplication does in the normal
range (no overflow or subnormals occur at the image sizes involved).
---------------------------------------------------------------- -/

/-- Dyadic float value `m * 2^e`. -/
structure F64 where
  m : ℤ
  e : ℤ
deriving DecidableEq

/-- Number of binary digits of `n` (`bitsAux fuel n`); fuel-driven so the
kernel can evaluate it.  `bits 0 = 0`. -/
def bitsAux : ℕ → ℕ → ℕ
  | 0, _ => 0
  | _ + 1, 0 => 0
  | fuel + 1, n + 1 => bitsAux fuel ((n + 1) / 2) + 1

/-- Number of binary digits (enough fuel for all quantities arising here). -/
def bits (n : ℕ) : ℕ := bitsAux 200 n

/-- Round `N / D` (`D > 0`) to the nearest integer, ties to even. -/
def roundHalfEvenDiv (N D : ℕ) : ℕ :=
  let q := N / D
  let r := N % D
  if 2 * r < D then q
  else if D < 2 * r then q + 1
  else if q % 2 = 0 then q else q + 1

/-- Round the positive rational `N / D` to binary64. -/
def roundRatF64 (N D : ℕ) : F64 :=
  if N = 0 then ⟨0, 0⟩ else
  let k : ℤ := 55 + (bits D : ℤ) - (bits N : ℤ)
  let N' := if 0 ≤ k then N * 2 ^ k.toNat else N
  let D' := if 0 ≤ k then D else D * 2 ^ (-k).toNat
  let s := bits (N' / D') - 53
  ⟨(roundHalfEvenDiv N' (D' * 2 ^ s) : ℤ), -k + s⟩

/-- Renormalise a nonnegative dyadic to at most 53 mantissa bits
(rounding to nearest, ties to even). -/
def normF64 (m : ℤ) (e : ℤ) : F64 :=
  let mn := m.toNat
  let b := bits mn
  if b ≤ 53 then ⟨m, e⟩
  else ⟨(roundHalfEvenDiv mn (2 ^ (b - 53)) : ℤ), e + (b - 53)⟩

/-- Python float division of two nonnegative ints, `a / b`. -/
def fdivN (a b : ℕ) : F64 := roundRatF64 a b

/-- Python float multiplication `(n : int) * (x : float)` for nonnegative
values. -/
def fmulN (n : ℕ) (x : F64) : F64 := normF64 ((n : ℤ) * x.m) x.e

/-- Value comparison `a ≤ b` of two dyadic floats. -/
def leF64 (a b : F64) : Bool :=
  let e := min a.e b.e
  a.m * 2 ^ (a.e - e).toNat ≤ b.m * 2 ^ (b.e - e).toNat

/-- Python `max(a, b)` on floats (returns `a` when `a ≥ b`). -/
def fmaxF64 (a b : F64) : F64 := if leF64 b a then a else b

/-- Python `min(a, b)` on floats (returns `a` when `a ≤ b`). -/
def fminF64 (a b : F64) : F64 := if leF64 a b then a else b

/-- Python `int(x)`: truncation toward zero (all uses here are
nonnegative). -/
def truncF64 (x : F64) : ℤ :=
  if 0 ≤ x.e then x.m * 2 ^ x.e.toNat else x.m / 2 ^ (-x.e).toNat

/-- Python float multiplication: the exact product of two dyadics, rounded
to 53 bits (both uses here are nonnegative). -/
def fmulF64 (a b : F64) : F64 := normF64 (a.m * b.m) (a.e + b.e)

/-- Embeds `max(0, min(opacity, 1))` (`render.py` lines 320 and 422):
comparisons and selection only, no rounding; Python returns the first
argument of `min`/`max` on ties, and the int literals 0 and 1 have the same
numeric value as the dyadics used here. -/
def clamp01F64 (x : F64) : F64 := fmaxF64 ⟨0, 0⟩ (fminF64 x ⟨1, 0⟩)

/-- Numerals denote the corresponding exactly-representable float. -/
instance (n : ℕ) : OfNat F64 n := ⟨⟨(n : ℤ), 0⟩⟩

/- ----------------------------------------------------------------
Data model, from `src/app/models.py`.
---------------------------------------------------------------- -/

/-- Dataclass `BackgroundConfig` from `models.py`. -/
structure BackgroundConfig where
  kind : Str
  value : Str
  opacity : F64
  gradient_type : Option Str
  gradient_stops : List (Str × ℚ)
  gradient_angle : Option ℚ
  gradient_center : Option (ℚ × ℚ)
deriving DecidableEq

/-- Dataclass `Slot` from `models.py`: `box` is (x, y, width, height),
and `radii` is the optional per-corner radius tuple. -/
structure Slot where
  key : Str
  box : ℤ × ℤ × ℤ × ℤ
  radius : ℤ
  radii : Option (ℤ × ℤ × ℤ × ℤ)
  fit : Str
  padding : ℤ
  align_x : Str
  align_y : Str
  rotation : ℚ
  rotate_x : ℚ
  rotate_y : ℚ
deriving DecidableEq

/-- Shadow dict of `TextStyle` from `models.py`. -/
structure ShadowConfig where
  offset : ℤ × ℤ
  color : Str
  blur : ℤ
deriving DecidableEq

/-- Dataclass `TextStyle` from `models.py`. -/
structure TextStyle where
  font : Option Str
  size : ℤ
  color : Str
  align : Str
  max_width : Option ℤ
  line_spacing : ℚ
  stroke_width : ℤ
  stroke_fill : Option Str
  shadow : Option ShadowConfig
deriving DecidableEq

instance : Inhabited TextStyle :=
  ⟨⟨none, 42, [], [], none, 1, 0, none, none⟩⟩

/-- Dataclass `TextBlock` from `models.py`. -/
structure TextBlock where
  key : Str
  box : ℤ × ℤ × ℤ × ℤ
  style : TextStyle
deriving DecidableEq

instance : Inhabited TextBlock := ⟨⟨[], (0, 0, 0, 0), default⟩⟩

/-- Dataclass `TemplateDefinition` from `models.py`. -/
structure TemplateDefinition where
  key : Str
  name : Str
  size : ℤ × ℤ
  background : BackgroundConfig
  slots : List Slot
  texts : List TextBlock
deriving DecidableEq

/-- Dataclass `RenderInput` from `models.py`; the maps are association lists. -/
structure RenderInput where
  template_key : Str
  output_name : Str
  background_path : Option Str
  texts : List (Str × Str)
  text_colors : List (Str × Str)
  slot_paths : List (Str × Str)
deriving DecidableEq


/- ----------------------------------------------------------------
`_resize_fit` size and crop arithmetic (`render.py` lines 91-133).
---------------------------------------------------------------- -/

/-- Result of the `fit="cover"` path of `_resize_fit`: the truncated resized
size and the crop rectangle's top-left corner.  The PIL `crop` call returns
exactly the requested `(tw, th)` box; pixels of the crop box that fall outside
`(newW, newH)` are filled with transparent black. -/
structure CoverCrop where
  newW : ℤ
  newH : ℤ
  cleft : ℤ
  ctop : ℤ
deriving DecidableEq

/-- Size/crop arithmetic of `_resize_fit` for `fit="cover"`
(`render.py` lines 91-133): `scale = max(tw/iw, th/ih)` in float,
`new_size = (max(1, int(iw*scale)), max(1, int(ih*scale)))`, then the
alignment-driven crop offsets (Python `//` is floor division). -/
def resizeFitCoverCalc (iw ih tw th : ℕ) (alignX alignY : Str) : CoverCrop :=
  let scale := fmaxF64 (fdivN tw iw) (fdivN th ih)
  let newW : ℤ := max 1 (truncF64 (fmulN iw scale))
  let newH : ℤ := max 1 (truncF64 (fmulN ih scale))
  let cleft : ℤ :=
    if alignX = "left".toList then 0
    else if alignX = "right".toList then newW - tw
    else Int.fdiv (newW - tw) 2
  let ctop : ℤ :=
    if alignY = "top".toList then 0
    else if alignY = "bottom".toList then newH - th
    else Int.fdiv (newH - th) 2
  ⟨newW, newH, cleft, ctop⟩

/-- The crop rectangle lies inside the resized image, i.e. the cover output
contains no transparent padding pixels (every output pixel comes from source
content). -/
def coverCropInBounds (c : CoverCrop) (tw th : ℕ) : Prop :=
  0 ≤ c.cleft ∧ c.cleft + tw ≤ c.newW ∧ 0 ≤ c.ctop ∧ c.ctop + th ≤ c.newH

instance (c : CoverCrop) (tw th : ℕ) : Decidable (coverCropInBounds c tw th) := by
  unfold coverCropInBounds; infer_instance

/- ----------------------------------------------------------------
Hex colour parsing (`ImageColor_get`, `render.py` lines 416-423, and the
identical `hex_to_rgba` closure in `_draw_gradient`, lines 314-321).
---------------------------------------------------------------- -/

/-- Value of a hexadecimal digit; `none` models the `ValueError` raised by
Python `int(s, 16)` on a non-hex character (the exotic `int(,16)` inputs with
signs or inner whitespace do not occur for 2-character slices of colour
strings and are also modelled as failures). -/
def hexDigit (c : Char) : Option ℕ :=
  if '0' ≤ c ∧ c ≤ '9' then some (c.toNat - '0'.toNat)
  else if 'a' ≤ c ∧ c ≤ 'f' then some (c.toNat - 'a'.toNat + 10)
  else if 'A' ≤ c ∧ c ≤ 'F' then some (c.toNat - 'A'.toNat + 10)
  else none

/-- Python `int(s, 16)` on a two-character slice. -/
def hexPair (c₁ c₂ : Char) : Option ℕ :=
  match hexDigit c₁, hexDigit c₂ with
  | some h, some l => some (16 * h + l)
  | _, _ => none

/-- Python `s.lstrip("#")`: remove all leading `#` characters. -/
def pyLstripHash (s : Str) : Str := s.dropWhile (· == '#')

/-- The alpha channel `int(255 * max(0, min(opacity, 1)))` of `render.py`
lines 422 and 320, computed as CPython does: the float opacity is clamped
without rounding, multiplied by 255 in binary64 (round to nearest, ties to
even), and truncated toward zero.  The binary64 rounding matters: at the
float closest to 0.6 the product rounds up to exactly 153.0, so the alpha
is 153 although the exact rational product is just below 153. -/
def alphaOfOpacity (opacity : F64) : ℕ :=
  (truncF64 (fmulF64 ⟨255, 0⟩ (clamp01F64 opacity))).toNat

/-- Embeds `ImageColor_get` (`render.py` lines 416-423): strip leading `#`; a
6-character remainder is parsed as RGB pairs (a parse error propagates as an
exception, `none`), anything else falls back to white; alpha comes from the
clamped opacity. -/
def ImageColor_get (hex_value : Str) (opacity : F64) : Option (ℕ × ℕ × ℕ × ℕ) :=
  let s := pyLstripHash hex_value
  let a := alphaOfOpacity opacity
  match s with
  | [c₁, c₂, c₃, c₄, c₅, c₆] =>
    match hexPair c₁ c₂, hexPair c₃ c₄, hexPair c₅ c₆ with
    | some r, some g, some b => some (r, g, b, a)
    | _, _, _ => none
  | _ => some (255, 255, 255, a)

/-- The `hex_to_rgba` closure of `_draw_gradient` (`render.py` lines 314-321),
textually the same computation as `ImageColor_get`. -/
def hex_to_rgba (hex_str : Str) (opacity : F64) : Option (ℕ × ℕ × ℕ × ℕ) :=
  ImageColor_get hex_str opacity

/- ----------------------------------------------------------------
Gradient synthesizer (`_draw_gradient`, `render.py` lines 305-382),
embedded per pixel: the numpy whole-field computation applies the same
scalar formulas to every pixel.
---------------------------------------------------------------- -/

/-- Embeds `np.clip(x, 0.0, 1.0)`. -/
def qclip01 (x : ℚ) : ℚ := max 0 (min x 1)

/-- Per-pixel position field of a linear gradient (`render.py` lines
337-350): project the pixel's offset from the canvas center onto
`(cos a, sin a)` and rescale by `max_dist = sqrt(w*w + h*h)/2`.
`cosA`/`sinA`/`maxDist` are the values produced by the external
`math.cos`/`math.sin`/`math.sqrt` calls and are passed in as arguments. -/
def linearGradientPos (w h : ℤ) (cosA sinA maxDist : ℚ) (x y : ℤ) : ℚ :=
  let center_x : ℚ := (w : ℚ) / 2
  let center_y : ℚ := (h : ℚ) / 2
  let dx : ℚ := (x : ℚ) - center_x
  let dy : ℚ := (y : ℚ) - center_y
  let dist := dx * cosA + dy * sinA
  qclip01 ((dist / maxDist + 1) / 2)

/-- Insert a stop into a position-sorted list, before strictly greater
positions (stable, like Python's `sorted` with a key). -/
def insertStopByPos (s : Str × ℚ) : List (Str × ℚ) → List (Str × ℚ)
  | [] => [s]
  | t :: ts => if t.2 < s.2 then t :: insertStopByPos s ts else s :: t :: ts

/-- Embeds `sorted(config.gradient_stops, key=lambda s: s["position"])`
(`render.py` line 312). -/
def sortStops : List (Str × ℚ) → List (Str × ℚ)
  | [] => []
  | s :: rest => insertStopByPos s (sortStops rest)

/-- Numpy `uint8` subtraction `a - b`: wraps modulo 256. -/
def u8sub (a b : ℕ) : ℕ := (a % 256 + 256 - b % 256) % 256

/-- Per-channel value assigned by `render.py` line 366:
`(c1[ch] + (c2[ch] - c1[ch]) * t).astype(np.uint8)`.  The subtraction is
performed on numpy `uint8` scalars (wrapping modulo 256), the product with
the float `t` is a float, and `astype(np.uint8)` truncates toward zero and
wraps modulo 256. -/
def lerpChan (c1 c2 : ℕ) (t : ℚ) : ℕ :=
  (⌊(c1 : ℚ) + ((u8sub c2 c1 : ℕ) : ℚ) * t⌋).toNat % 256

/-- All four RGBA channels of `render.py` lines 365-366. -/
def lerpPx (c1 c2 : ℕ × ℕ × ℕ × ℕ) (t : ℚ) : ℕ × ℕ × ℕ × ℕ :=
  (lerpChan c1.1 c2.1 t, lerpChan c1.2.1 c2.2.1 t,
   lerpChan c1.2.2.1 c2.2.2.1 t, lerpChan c1.2.2.2 c2.2.2.2 t)

/-- Adjacent-stop interpolation loop (`render.py` lines 353-366) restricted
to one pixel with position-field value `pos`; `px` is the current RGBA value
of that pixel in `arr` (initially transparent black).  A hex parse error
inside the loop raises (`none`). -/
def applyStopPairs (opacity : F64) (pos : ℚ) :
    List (Str × ℚ) → (ℕ × ℕ × ℕ × ℕ) → Option (ℕ × ℕ × ℕ × ℕ)
  | s1 :: s2 :: rest, px =>
    if s2.2 ≤ s1.2 then applyStopPairs opacity pos (s2 :: rest) px
    else if s1.2 ≤ pos ∧ pos ≤ s2.2 then
      match hex_to_rgba s1.1 opacity, hex_to_rgba s2.1 opacity with
      | some c1, some c2 =>
        applyStopPairs opacity pos (s2 :: rest)
          (lerpPx c1 c2 (qclip01 ((pos - s1.2) / (s2.2 - s1.2))))
      | _, _ => none
    else applyStopPairs opacity pos (s2 :: rest) px
  | _, px => some px

/-- Per-pixel RGBA value produced by `_draw_gradient` for a pixel whose
position-field value is `pos` (`render.py` lines 312, 353-379): sort the
stops, run the adjacent-pair interpolation loop, then give pixels before the
first stop / after the last stop that stop's color verbatim. -/
def gradientPixelAt (stopsIn : List (Str × ℚ)) (opacity : F64) (pos : ℚ) :
    Option (ℕ × ℕ × ℕ × ℕ) :=
  let stops := sortStops stopsIn
  match applyStopPairs opacity pos stops (0, 0, 0, 0) with
  | none => none
  | some px =>
    match stops.head?, stops.getLast? with
    | some first, some last =>
      if pos < first.2 then hex_to_rgba first.1 opacity
      else if last.2 < pos then hex_to_rgba last.1 opacity
      else some px
    | _, _ => some px

/- ----------------------------------------------------------------
Perspective projection (`_project_slot_quad`, `render.py` lines 171-223).
---------------------------------------------------------------- -/

/-- External `math.radians`/`math.cos`/`math.sin`; the projection geometry
below holds for arbitrary values of these functions. -/
structure TrigOps where
  radians : ℚ → ℚ
  cos : ℚ → ℚ
  sin : ℚ → ℚ

/-- Embeds the clamping `max(-89.0, min(89.0, angle))` of `render.py`
lines 187-188. -/
def clampAngle (angle : ℚ) : ℚ := max (-89) (min 89 angle)

/-- Epsilon of the degenerate-denominator fixup (`render.py` line 198). -/
def projEps : ℚ := 1 / 1000000

/-- Fixed camera distance `d = max(1.0, camera_k * max(w, h))`
(`render.py` line 197). -/
def cameraDist (camera_k : ℚ) (w h : ℤ) : ℚ :=
  max 1 (camera_k * ((max w h : ℤ) : ℚ))

/-- Embeds `rot_z` (`render.py` lines 200-201). -/
def rotZ (cosz sinz : ℚ) (p : ℚ × ℚ × ℚ) : ℚ × ℚ × ℚ :=
  (p.1 * cosz - p.2.1 * sinz, p.1 * sinz + p.2.1 * cosz, p.2.2)

/-- Embeds `rot_x` (`render.py` lines 203-204). -/
def rotX (cosx sinx : ℚ) (p : ℚ × ℚ × ℚ) : ℚ × ℚ × ℚ :=
  (p.1, p.2.1 * cosx - p.2.2 * sinx, p.2.1 * sinx + p.2.2 * cosx)

/-- Embeds `rot_y` (`render.py` lines 206-207). -/
def rotY (cosy siny : ℚ) (p : ℚ × ℚ × ℚ) : ℚ × ℚ × ℚ :=
  (p.1 * cosy + p.2.2 * siny, p.2.1, -p.1 * siny + p.2.2 * cosy)

/-- Denominator of the perspective divide after the degeneracy fixup
(`render.py` lines 210-212): `d - Z`, replaced by `±eps` when its magnitude
is below `eps`, keeping the sign (`eps` for `d - Z ≥ 0`). -/
def projDenomFix (d Z : ℚ) : ℚ :=
  let denom := d - Z
  if |denom| < projEps then (if 0 ≤ denom then projEps else -projEps) else denom

/-- Embeds `project` (`render.py` lines 209-214). -/
def projectPoint (d cx cy : ℚ) (p : ℚ × ℚ × ℚ) : ℚ × ℚ :=
  let s := d / projDenomFix d p.2.2
  (p.1 * s + cx, p.2.1 * s + cy)

/-- Corner positions after the three rotations (`render.py` lines 216-221):
clamp `rotate_x`/`rotate_y`, convert to radians, and rotate each centered
corner by Z, then X, then Y. -/
def rotatedCorners (trig : TrigOps) (w h : ℤ) (rotate_x rotate_y rotate_z : ℚ) :
    List (ℚ × ℚ × ℚ) :=
  let cx : ℚ := (w : ℚ) / 2
  let cy : ℚ := (h : ℚ) / 2
  let rx := clampAngle rotate_x
  let ry := clampAngle rotate_y
  let rz := rotate_z
  let cosx := trig.cos (trig.radians rx)
  let sinx := trig.sin (trig.radians rx)
  let cosy := trig.cos (trig.radians ry)
  let siny := trig.sin (trig.radians ry)
  let cosz := trig.cos (trig.radians rz)
  let sinz := trig.sin (trig.radians rz)
  [(-cx, -cy, (0:ℚ)), (cx, -cy, (0:ℚ)), (cx, cy, (0:ℚ)), (-cx, cy, (0:ℚ))].map
    (fun p => rotY cosy siny (rotX cosx sinx (rotZ cosz sinz p)))

/-- Embeds `_project_slot_quad` (`render.py` lines 171-223). -/
def project_slot_quad (trig : TrigOps) (w h : ℤ)
    (rotate_x rotate_y rotate_z camera_k : ℚ) : List (ℚ × ℚ) :=
  let d := cameraDist camera_k w h
  (rotatedCorners trig w h rotate_x rotate_y rotate_z).map
    (projectPoint d ((w : ℚ) / 2) ((h : ℚ) / 2))

/-- The four perspective-divide denominators (after fixup) arising in
`project_slot_quad`. -/
def quadDenoms (trig : TrigOps) (w h : ℤ)
    (rotate_x rotate_y rotate_z camera_k : ℚ) : List ℚ :=
  let d := cameraDist camera_k w h
  (rotatedCorners trig w h rotate_x rotate_y rotate_z).map
    (fun p => projDenomFix d p.2.2)

/- ----------------------------------------------------------------
Greedy word-wrap (`wrap_lines` inside `draw_text_block`,
`render.py` lines 48-66).
---------------------------------------------------------------- -/

/-- Effective wrap width `block.style.max_width or w` (`render.py` line 52):
Python `or` falls back to the box width when `max_width` is `None` or `0`. -/
def effectiveMaxWidth (max_width : Option ℤ) (w : ℤ) : ℤ :=
  if pyTruthyInt max_width then max_width.getD 0 else w

/-- Loop body of `wrap_lines` (`render.py` lines 53-65): `measure` is the
pixel width `bbox[2] - bbox[0]` reported by the external
`draw.textbbox((0,0), line, font)` call, passed in as a parameter. -/
def wrapAux (measure : Str → ℤ) (maxW : ℤ) :
    List Str → Str → List Str → List Str
  | [], current, lines => if current.isEmpty then lines else lines ++ [current]
  | word :: rest, current, lines =>
    let trial := pyStrip (current ++ [' '] ++ word)
    if trial.isEmpty then wrapAux measure maxW rest current lines
    else if measure trial ≤ maxW then wrapAux measure maxW rest trial lines
    else if current.isEmpty then wrapAux measure maxW rest word lines
    else wrapAux measure maxW rest word (lines ++ [current])

/-- Embeds `wrap_lines` (`render.py` lines 48-66): split the content on
whitespace, run the greedy loop, and return `lines or [""]`. -/
def wrapLines (measure : Str → ℤ) (maxW : ℤ) (content : Str) : List Str :=
  let ls := wrapAux measure maxW (pySplit content) [] []
  if ls.isEmpty then [[]] else ls

/- ----------------------------------------------------------------
Compose pipeline (`render.py` lines 226-302, 385-451).  PIL image values
are an abstract type `α` and the PIL/numpy/math library operations are the
fields of `Ops`; the control flow, arithmetic and exception behaviour of
`render.py` are embedded directly.  The filesystem is a map from paths to
`FileContent`: `missing` (no file, `Path.exists()` is false), `unreadable`
(the file exists but `Image.open` raises), or a decodable image.
---------------------------------------------------------------- -/

/-- Contents of the filesystem at one path. -/
inductive FileContent (α : Type) where
  | missing
  | unreadable
  | image (img : α)

/-- External library operations used by the compositor (PIL image
operations, `numpy.linalg.solve`, `math` trigonometry). -/
structure Ops (α : Type) where
  newCanvas : ℤ → ℤ → (ℕ × ℕ × ℕ × ℕ) → α
  convertRGBA : α → α
  sizeOf : α → ℤ × ℤ
  resizeFitOp : α → ℤ × ℤ → Str → Str → Str → α
  resizeOp : α → ℤ × ℤ → α
  maskRoundedRect : ℤ → ℤ → ℤ → α
  putAlpha : α → α → α
  alphaComposite : α → α → ℤ → ℤ → α
  drawGradientOp : α → BackgroundConfig → α
  drawTextOp : α → TextBlock → Str → α
  transformPerspective : α → ℤ × ℤ → List ℚ → α
  linSolve : List (List ℚ) → List ℚ → Except Unit (List ℚ)
  trig : TrigOps

/-- Embeds `_round_corners` (`render.py` lines 136-168): a radius of at most
0 returns the image unchanged; otherwise a 4x supersampled rounded-rectangle
mask is drawn, downsampled, and applied with `putalpha`. -/
def round_corners {α : Type} (ops : Ops α) (img : α) (radius : ℤ) : α :=
  if radius ≤ 0 then img
  else
    let factor : ℤ := 4
    let wh := ops.sizeOf img
    let mask := ops.maskRoundedRect (wh.1 * factor) (wh.2 * factor) (radius * factor)
    let mask2 := ops.resizeOp mask (wh.1, wh.2)
    ops.putAlpha img mask2

/-- Matrix rows of `_perspective_coeffs` (`render.py` lines 234-238). -/
def perspectiveRows : List ((ℚ × ℚ) × (ℚ × ℚ)) → List (List ℚ)
  | [] => []
  | ((x, y), (u, v)) :: rest =>
    [x, y, 1, 0, 0, 0, -u * x, -u * y] ::
    [0, 0, 0, x, y, 1, -v * x, -v * y] :: perspectiveRows rest

/-- Right-hand side of `_perspective_coeffs` (`render.py` lines 239-240). -/
def perspectiveRhs : List ((ℚ × ℚ) × (ℚ × ℚ)) → List ℚ
  | [] => []
  | ((_, _), (u, v)) :: rest => u :: v :: perspectiveRhs rest

/-- Embeds `_perspective_coeffs` (`render.py` lines 226-246); the
`np.linalg.solve` call is `ops.linSolve` (it raises on a singular matrix). -/
def perspective_coeffs {α : Type} (ops : Ops α) (dst_quad src_quad : List (ℚ × ℚ)) :
    Except Unit (List ℚ) :=
  if dst_quad.length ≠ 4 ∨ src_quad.length ≠ 4 then .error ()
  else
    let pairs := dst_quad.zip src_quad
    ops.linSolve (perspectiveRows pairs) (perspectiveRhs pairs)

/-- Minimum of a nonempty float list (Python `min`). -/
def qListMin : List ℚ → ℚ
  | [] => 0
  | a :: rest => rest.foldl min a

/-- Maximum of a nonempty float list (Python `max`). -/
def qListMax : List ℚ → ℚ
  | [] => 0
  | a :: rest => rest.foldl max a

/-- Python `round()` on a float: round half to even. -/
def roundHalfEvenQ (q : ℚ) : ℤ :=
  let f := ⌊q⌋
  let r := q - (f : ℚ)
  if r < 1 / 2 then f
  else if 1 / 2 < r then f + 1
  else if f % 2 = 0 then f else f + 1

/-- Embeds `place_slot` (`render.py` lines 249-302).  A missing content file
returns early leaving the canvas untouched; `Image.open` on an existing but
undecodable file raises (`error`).  The rotation branch projects the slot
quad, computes the output bounding box, supersamples, solves the homography
and composites the warped layer; the non-rotated branch composites the slot
layer at the slot origin. -/
def place_slot {α : Type} (ops : Ops α) (fs : Str → FileContent α)
    (base : α) (slot : Slot) (content_path : Str) : Except Unit α :=
  match fs content_path with
  | .missing => .ok base
  | .unreadable => .error ()
  | .image raw =>
    let img := ops.convertRGBA raw
    let x := slot.box.1
    let y := slot.box.2.1
    let w := slot.box.2.2.1
    let h := slot.box.2.2.2
    let pad := slot.padding
    let target_size : ℤ × ℤ := (max 1 (w - pad * 2), max 1 (h - pad * 2))
    let fitted := ops.resizeFitOp img target_size slot.fit slot.align_x slot.align_y
    let rounded := round_corners ops fitted slot.radius
    let slot_layer := ops.alphaComposite (ops.newCanvas w h (0, 0, 0, 0)) rounded pad pad
    let rotate_x := slot.rotate_x
    let rotate_y := slot.rotate_y
    let rotate_z := slot.rotation
    if rotate_x ≠ 0 ∨ rotate_y ≠ 0 ∨ rotate_z ≠ 0 then
      let dst_quad := project_slot_quad ops.trig w h rotate_x rotate_y rotate_z (5 / 2)
      let xs := dst_quad.map Prod.fst
      let ys := dst_quad.map Prod.snd
      let min_x := qListMin xs
      let max_x := qListMax xs
      let min_y := qListMin ys
      let max_y := qListMax ys
      let out_w : ℤ := max 1 ⌈max_x - min_x⌉
      let out_h : ℤ := max 1 ⌈max_y - min_y⌉
      let factor : ℤ := 2
      let w_hi := w * factor
      let h_hi := h * factor
      let out_w_hi := out_w * factor
      let out_h_hi := out_h * factor
      let slot_layer_hi := ops.resizeOp slot_layer (w_hi, h_hi)
      let dst_quad_shifted_hi := dst_quad.map
        (fun p => ((p.1 - min_x) * (2 : ℚ), (p.2 - min_y) * (2 : ℚ)))
      let src_quad_hi : List (ℚ × ℚ) :=
        [(0, 0), ((w_hi : ℚ), 0), ((w_hi : ℚ), (h_hi : ℚ)), (0, (h_hi : ℚ))]
      match perspective_coeffs ops dst_quad_shifted_hi src_quad_hi with
      | .error e => .error e
      | .ok coeffs_hi =>
        let warped_hi := ops.transformPerspective slot_layer_hi (out_w_hi, out_h_hi) coeffs_hi
        let warped := ops.resizeOp warped_hi (out_w, out_h)
        let dest_x := roundHalfEvenQ ((x : ℚ) + min_x)
        let dest_y := roundHalfEvenQ ((y : ℚ) + min_y)
        .ok (ops.alphaComposite base warped dest_x dest_y)
    else
      .ok (ops.alphaComposite base slot_layer x y)

/-- Base canvas of `apply_background` (`render.py` lines 386-396):
gradient-filled transparent canvas, solid colour from `ImageColor_get`
(whose `int(,16)` parse errors propagate), or the opaque white placeholder. -/
def backgroundBase {α : Type} (ops : Ops α) (template : TemplateDefinition) :
    Except Unit α :=
  let w := template.size.1
  let h := template.size.2
  if template.background.kind = "gradient".toList then
    .ok (ops.drawGradientOp (ops.newCanvas w h (0, 0, 0, 0)) template.background)
  else if template.background.kind = "color".toList then
    match ImageColor_get template.background.value template.background.opacity with
    | some c => .ok (ops.newCanvas w h c)
    | none => .error ()
  else .ok (ops.newCanvas w h (255, 255, 255, 255))

/-- Decode a background image, `cover`-fit it to the canvas size and
alpha-composite it (`render.py` lines 400, 404-405 and 410-412). -/
def overlayFitted {α : Type} (ops : Ops α) (img bg : α) (w h : ℤ) : α :=
  ops.alphaComposite img
    (ops.resizeFitOp (ops.convertRGBA bg) (w, h) "cover".toList
      "center".toList "center".toList) 0 0

/-- Template-image branch of `apply_background` (`render.py` lines 407-413):
when `kind == "image"` and the value is truthy and the path exists, decode
and composite it; `Image.open` here is not wrapped in try/except, so an
existing but undecodable file raises. -/
def templateImageOverlay {α : Type} (ops : Ops α) (fs : Str → FileContent α)
    (template : TemplateDefinition) (img : α) (w h : ℤ) : Except Unit α :=
  if template.background.kind = "image".toList ∧ ¬template.background.value.isEmpty then
    match fs template.background.value with
    | .missing => .ok img
    | .unreadable => .error ()
    | .image bg => .ok (overlayFitted ops img bg w h)
  else .ok img

/-- Embeds `apply_background` (`render.py` lines 385-413).  The
`background_path` override is decoded inside try/except: any failure
(missing or undecodable) silently falls through to the template-image
branch. -/
def apply_background {α : Type} (ops : Ops α) (fs : Str → FileContent α)
    (template : TemplateDefinition) (background_path : Option Str) :
    Except Unit α :=
  let w := template.size.1
  let h := template.size.2
  match backgroundBase ops template with
  | .error e => .error e
  | .ok img =>
    if pyTruthyStr background_path then
      match fs (background_path.getD []) with
      | .image bg => .ok (overlayFitted ops img bg w h)
      | _ => templateImageOverlay ops fs template img w h
    else templateImageOverlay ops fs template img w h

/-- Slot loop of `compose_cover` (`render.py` lines 430-437): look up each
slot's bound path; a missing or empty binding skips the slot. -/
def composeSlots {α : Type} (ops : Ops α) (fs : Str → FileContent α)
    (slot_paths : List (Str × Str)) : List Slot → α → Except Unit α
  | [], base => .ok base
  | slot :: rest, base =>
    match pyGet slot_paths slot.key with
    | some raw =>
      if raw.isEmpty then composeSlots ops fs slot_paths rest base
      else
        match place_slot ops fs base slot raw with
        | .error e => .error e
        | .ok base2 => composeSlots ops fs slot_paths rest base2
    | none => composeSlots ops fs slot_paths rest base

/-- The condition of `render.py` line 443:
`isinstance(override, str) and override.strip().startswith("#")`. -/
def overrideApplies (override : Option Str) : Bool :=
  match override with
  | some s =>
    match pyStrip s with
    | '#' :: _ => true
    | _ => false
  | none => false

/-- The text block actually drawn for a template block (`render.py` lines
442-449): when the override applies, a deep copy with only `style.color`
replaced by the stripped override; otherwise the template block itself. -/
def effectiveTextBlock (text : TextBlock) (override : Option Str) : TextBlock :=
  if overrideApplies override then
    { text with style := { text.style with color := pyStrip (override.getD []) } }
  else text

/-- Text loop of `compose_cover` (`render.py` lines 440-449) with an
explicit object store: `store` starts as the template's text-block list and
the loop reads block `i` from it; the `deepcopy` in the override branch
allocates a fresh object, modelled by appending the copy to the store.  An
in-place mutation of a template block would instead overwrite its store
entry. -/
def composeTextsAux {α : Type} (ops : Ops α) (texts text_colors : List (Str × Str)) :
    List ℕ → α → List TextBlock → α × List TextBlock
  | [], canvas, store => (canvas, store)
  | i :: rest, canvas, store =>
    let text := store.getD i default
    let content := (pyGet texts text.key).getD []
    let override := pyGet text_colors text.key
    let drawn := effectiveTextBlock text override
    let store2 := if overrideApplies override then store ++ [drawn] else store
    composeTextsAux ops texts text_colors rest (ops.drawTextOp canvas drawn content) store2

/-- Text loop of `compose_cover` over all template text blocks. -/
def composeTexts {α : Type} (ops : Ops α) (texts text_colors : List (Str × Str))
    (canvas : α) (blocks : List TextBlock) : α × List TextBlock :=
  composeTextsAux ops texts text_colors (List.range blocks.length) canvas blocks

/-- Embeds `compose_cover` (`render.py` lines 426-451): background, then
slots in template order, then texts.  The second component of the result is
the final text-block object store (see `composeTextsAux`); its initial
segment is the template's own text blocks. -/
def compose_cover {α : Type} (ops : Ops α) (fs : Str → FileContent α)
    (render_input : RenderInput) (template : TemplateDefinition) :
    Except Unit (α × List TextBlock) :=
  match apply_background ops fs template render_input.background_path with
  | .error e => .error e
  | .ok base =>
    match composeSlots ops fs render_input.slot_paths template.slots base with
    | .error e => .error e
    | .ok base2 =>
      .ok (composeTexts ops render_input.texts render_input.text_colors base2 template.texts)

/- ----------------------------------------------------------------
Claim-side definitions: these follow the wording of the spec/claims (not
the source) and exist only to be compared with the source embeddings.
---------------------------------------------------------------- -/

/-- Join words with single spaces (the claim's notion of a rendered line). -/
def joinWords : List Str → Str
  | [] => []
  | w :: ws =>
    match ws with
    | [] => w
    | _ :: _ => w ++ ' ' :: joinWords ws

/-- Claim wording of the greedy wrap (claim C6 / spec section 4.5 step 2):
a word joins the current line exactly when the measured width of the trial
line is at most the wrap width; once exceeded, the current non-empty line is
committed and a new line starts with the overflowing word. -/
def claimGreedyWrapAux (measure : Str → ℤ) (maxW : ℤ) :
    List Str → List Str → List Str → List Str
  | [], cur, lines => if cur.isEmpty then lines else lines ++ [joinWords cur]
  | word :: rest, cur, lines =>
    if measure (joinWords (cur ++ [word])) ≤ maxW then
      claimGreedyWrapAux measure maxW rest (cur ++ [word]) lines
    else if cur.isEmpty then
      claimGreedyWrapAux measure maxW rest [word] lines
    else
      claimGreedyWrapAux measure maxW rest [word] (lines ++ [joinWords cur])

/-- Claim wording of the whole wrap: split on whitespace, wrap greedily,
and an empty content string yields exactly one empty line. -/
def claimGreedyWrap (measure : Str → ℤ) (maxW : ℤ) (content : Str) : List Str :=
  let ls := claimGreedyWrapAux measure maxW (pySplit content) [] []
  if ls.isEmpty then [[]] else ls

/-- Claim wording of the effective wrap width for C6:
"max_width when set, otherwise the box width". -/
def claimMaxWidth (max_width : Option ℤ) (w : ℤ) : ℤ := max_width.getD w

/-- Claim wording for C10: "the string after removing a leading '#'"
(one leading hash removed, in contrast to `lstrip("#")`). -/
def claimDropLeadingHash (s : Str) : Str :=
  match s with
  | '#' :: rest => rest
  | _ => s

/- ----------------------------------------------------------------
Concrete fixtures for witnesses and counterexamples.
---------------------------------------------------------------- -/

/-- Trivial trigonometry stand-in (identity rotations) for witnesses. -/
def unitTrig : TrigOps := ⟨fun _ => 0, fun _ => 1, fun _ => 0⟩

/-- Trivial instantiation of the external image operations with `α = Unit`,
used to evaluate the embedded control flow concretely. -/
def unitOps : Ops Unit where
  newCanvas := fun _ _ _ => ()
  convertRGBA := fun _ => ()
  sizeOf := fun _ => (0, 0)
  resizeFitOp := fun _ _ _ _ _ => ()
  resizeOp := fun _ _ => ()
  maskRoundedRect := fun _ _ _ => ()
  putAlpha := fun _ _ => ()
  alphaComposite := fun _ _ _ _ => ()
  drawGradientOp := fun _ _ => ()
  drawTextOp := fun _ _ _ => ()
  transformPerspective := fun _ _ _ => ()
  linSolve := fun _ _ => .ok []
  trig := unitTrig

/-- Solid white background configuration. -/
def bgColorWhite : BackgroundConfig :=
  ⟨"color".toList, "#ffffff".toList, 1, none, [], none, none⟩

/-- Plain 100x100 slot keyed "s" with no rotation and no rounding. -/
def slotPlain : Slot :=
  ⟨"s".toList, (0, 0, 100, 100), 0, none, "cover".toList, 0,
   "center".toList, "center".toList, 0, 0, 0⟩

/-- Template with one slot and no texts. -/
def tplOneSlot : TemplateDefinition :=
  ⟨"t".toList, "t".toList, (100, 100), bgColorWhite, [slotPlain], []⟩

/-- Render input binding slot "s" to path "a.png". -/
def riOneSlot : RenderInput :=
  ⟨"t".toList, "o".toList, none, [], [], [("s".toList, "a.png".toList)]⟩

/-- Filesystem where "a.png" exists but cannot be decoded. -/
def fsUnreadableA : Str → FileContent Unit :=
  fun p => if p = "a.png".toList then .unreadable else .missing

/-- Filesystem with no files at all. -/
def fsEmpty : Str → FileContent Unit := fun _ => .missing

/-- Sample text block keyed "title" with the default style. -/
def textBlockTitle : TextBlock := ⟨"title".toList, (0, 0, 100, 50), default⟩

/-- Template with one text block and no slots. -/
def tplOneText : TemplateDefinition :=
  ⟨"t".toList, "t".toList, (100, 100), bgColorWhite, [], [textBlockTitle]⟩

/-- Render input with a text binding and a colour override for "title". -/
def riOneText : RenderInput :=
  ⟨"t".toList, "o".toList, none, [("title".toList, "hi".toList)],
   [("title".toList, " #ff0000 ".toList)], []⟩

/-- Background configuration of kind "image" pointing at "a.png". -/
def bgImageA : BackgroundConfig :=
  ⟨"image".toList, "a.png".toList, 1, none, [], none, none⟩

/-- Template whose background is the (unreadable) image "a.png". -/
def tplImageBg : TemplateDefinition :=
  ⟨"t".toList, "t".toList, (100, 100), bgImageA, [], []⟩

/-- Character-count measure used as a concrete stand-in for the text width
in wrap counterexamples. -/
def lenMeasure : Str → ℤ := fun s => (s.length : ℤ)

/-- A word produced by `pySplit`: nonempty and whitespace-free. -/
def wordOk (w : Str) : Prop := w ≠ [] ∧ ∀ c ∈ w, isPySpace c = false

/- ----------------------------------------------------------------
Helper lemmas.
---------------------------------------------------------------- -/

/-- Full opacity gives alpha 255. -/
theorem alphaOfOpacity_one : alphaOfOpacity 1 = 255 := by decide

/-- Pure red at full opacity. -/
theorem hex_red_eval : hex_to_rgba "#ff0000".toList 1 = some (255, 0, 0, 255) := by decide

/-- Pure blue at full opacity. -/
theorem hex_blue_eval : hex_to_rgba "#0000ff".toList 1 = some (0, 0, 255, 255) := by decide

/-- The fixed-up projection denominator is nonzero and at least epsilon in
magnitude, for every camera distance and depth. -/
theorem projDenomFix_ne (d Z : ℚ) : projDenomFix d Z ≠ 0 ∧ projEps ≤ |projDenomFix d Z| := by
  simp only [projDenomFix, projEps]
  split_ifs with h1 h2
  · refine ⟨by norm_num, ?_⟩
    rw [abs_of_pos (by norm_num)]
  · refine ⟨by norm_num, ?_⟩
    rw [abs_of_neg (by norm_num)]
    norm_num
  · rw [not_lt] at h1
    refine ⟨fun h0 => ?_, h1⟩
    rw [h0] at h1
    norm_num at h1

/-- Concrete evaluation of the projection denominators with identity
rotations and camera factor 0. -/
theorem quadDenoms_unit_eval : quadDenoms unitTrig 2 2 0 0 0 0 = [1, 1, 1, 1] := by
  norm_num [quadDenoms, rotatedCorners, projDenomFix, cameraDist, projEps, unitTrig,
    rotX, rotY, rotZ, clampAngle]

/-- The text-loop object store only ever grows by appended copies. -/
theorem composeTextsAux_extends : ∀ (α : Type) (ops : Ops α) (texts tcs : List (Str × Str))
    (ids : List ℕ) (canvas : α) (store : List TextBlock),
    ∃ ext, (composeTextsAux ops texts tcs ids canvas store).2 = store ++ ext := by
  intro α ops texts tcs ids
  induction ids with
  | nil => exact fun canvas store => ⟨[], by simp [composeTextsAux]⟩
  | cons i rest ih =>
    intro canvas store
    simp only [composeTextsAux]
    by_cases h : overrideApplies (pyGet tcs ((store.getD i default).key))
    · simp only [h, if_true]
      obtain ⟨ext, hext⟩ :=
        ih _ (store ++ [effectiveTextBlock (store.getD i default) (pyGet tcs (store.getD i default).key)])
      refine ⟨[effectiveTextBlock (store.getD i default)
        (pyGet tcs (store.getD i default).key)] ++ ext, ?_⟩
      rw [hext, List.append_assoc]
    · simp only [h, if_false]
      exact ih _ store

/-- The override condition of `render.py` line 443 holds exactly when the
override is a string whose stripped form starts with a hash. -/
theorem overrideApplies_iff (ov : Option Str) : overrideApplies ov = true ↔
    ∃ s, ov = some s ∧ (pyStrip s).head? = some '#' := by
  cases ov with
  | none => simp [overrideApplies]
  | some s =>
    simp only [overrideApplies, Option.some.injEq]
    rw [show (∃ t, s = t ∧ (pyStrip t).head? = some '#') ↔ (pyStrip s).head? = some '#' from
      ⟨fun ⟨t, h1, h2⟩ => h1 ▸ h2, fun h => ⟨s, rfl, h⟩⟩]
    split
    · rename_i xs heq
      simp [heq]
    · rename_i hnone
      constructor
      · intro h
        exact absurd h (by simp)
      · intro hh
        exfalso
        cases hps : pyStrip s with
        | nil => rw [hps] at hh; simp at hh
        | cons c cs =>
          rw [hps] at hh
          simp only [List.head?, Option.some.injEq] at hh
          exact hnone cs (by rw [hps, hh])

/-- A list whose head is not whitespace is unchanged by `dropWhile`. -/
theorem dropWhile_cons_false {c : Char} {l : Str} (h : isPySpace c = false) :
    List.dropWhile isPySpace (c :: l) = c :: l := by
  simp [List.dropWhile_cons, h]

/-- Stripping is the identity on a string with non-whitespace first and last
characters. -/
theorem pyStrip_noop {s : Str}
    (h1 : ∃ c cs, s = c :: cs ∧ isPySpace c = false)
    (h2 : ∃ d ds, s.reverse = d :: ds ∧ isPySpace d = false) :
    pyStrip s = s := by
  obtain ⟨c, cs, hs, hc⟩ := h1
  obtain ⟨d, ds, hr, hd⟩ := h2
  unfold pyStrip
  rw [hs, dropWhile_cons_false hc, ← hs, hr, dropWhile_cons_false hd, ← hr,
    List.reverse_reverse]

/-- Stripping removes a leading space. -/
theorem pyStrip_space_cons (w : Str) : pyStrip (' ' :: w) = pyStrip w := by
  unfold pyStrip
  rw [show List.dropWhile isPySpace (' ' :: w) = List.dropWhile isPySpace w by
    have h : isPySpace ' ' = true := rfl
    simp [List.dropWhile_cons, h]]

/-- The reverse of a nonempty whitespace-free word starts with a
non-whitespace character. -/
theorem reverse_shape {w : Str} (hw : wordOk w) :
    ∃ d ds, w.reverse = d :: ds ∧ isPySpace d = false := by
  obtain ⟨hne, hns⟩ := hw
  cases hrev : w.reverse with
  | nil => exact absurd (by simpa using congrArg List.reverse hrev) hne
  | cons d ds =>
    refine ⟨d, ds, rfl, hns d ?_⟩
    rw [← List.mem_reverse, hrev]
    exact List.mem_cons_self _ _

/-- Stripping is the identity on whitespace-free strings. -/
theorem pyStrip_of_noSpace {w : Str} (h : ∀ c ∈ w, isPySpace c = false) :
    pyStrip w = w := by
  cases hw : w with
  | nil => rfl
  | cons c cs =>
    subst hw
    refine pyStrip_noop ⟨c, cs, rfl, h c (List.mem_cons_self _ _)⟩ ?_
    exact reverse_shape ⟨by simp, h⟩

/-- Appending one more word to a nonempty joined line inserts one space. -/
theorem joinWords_append_single : ∀ (cur : List Str) (w : Str), cur ≠ [] →
    joinWords (cur ++ [w]) = joinWords cur ++ ' ' :: w := by
  intro cur
  induction cur with
  | nil => intro w h; exact absurd rfl h
  | cons a rest ih =>
    intro w _
    cases rest with
    | nil => rfl
    | cons b rest2 =>
      show joinWords (a :: ((b :: rest2) ++ [w])) = (a ++ ' ' :: joinWords (b :: rest2)) ++ ' ' :: w
      rw [show joinWords (a :: ((b :: rest2) ++ [w])) =
          a ++ ' ' :: joinWords ((b :: rest2) ++ [w]) from rfl]
      rw [ih w (by simp), List.append_assoc, List.cons_append]

/-- A nonempty joined line starts with the first word's non-whitespace
head character. -/
theorem joinWords_head_shape : ∀ (ws : List Str), ws ≠ [] → (∀ w ∈ ws, wordOk w) →
    ∃ c cs, joinWords ws = c :: cs ∧ isPySpace c = false := by
  intro ws hne hok
  cases ws with
  | nil => exact absurd rfl hne
  | cons a rest =>
    obtain ⟨hane, hans⟩ := hok a (List.mem_cons_self _ _)
    cases ha : a with
    | nil => exact absurd ha hane
    | cons c cs =>
      subst ha
      have hc : isPySpace c = false := hans c (List.mem_cons_self _ _)
      cases rest with
      | nil => exact ⟨c, cs, rfl, hc⟩
      | cons b rest2 => exact ⟨c, cs ++ ' ' :: joinWords (b :: rest2), rfl, hc⟩

/-- Every word produced by `pySplit` is nonempty and whitespace-free. -/
theorem pySplitAux_words : ∀ (s cur : Str), (∀ c ∈ cur, isPySpace c = false) →
    ∀ w ∈ pySplitAux s cur, wordOk w := by
  intro s
  induction s with
  | nil =>
    intro cur hcur w hw
    simp only [pySplitAux] at hw
    split at hw
    · simp at hw
    · rename_i hne
      simp only [List.mem_singleton] at hw
      subst hw
      refine ⟨fun hrev => ?_, fun c hc => hcur c (List.mem_reverse.mp hc)⟩
      rw [List.reverse_eq_nil_iff] at hrev
      rw [hrev] at hne
      simp at hne
  | cons c cs ih =>
    intro cur hcur w hw
    simp only [pySplitAux] at hw
    by_cases hc : isPySpace c
    · rw [if_pos hc] at hw
      split at hw
      · exact ih [] (by simp) w hw
      · rename_i hne
        rcases List.mem_cons.mp hw with hw | hw
        · subst hw
          refine ⟨fun hrev => ?_, fun d hd => hcur d (List.mem_reverse.mp hd)⟩
          rw [List.reverse_eq_nil_iff] at hrev
          rw [hrev] at hne
          simp at hne
        · exact ih [] (by simp) w hw
    · rw [if_neg hc] at hw
      refine ih (c :: cur) ?_ w hw
      intro d hd
      rcases List.mem_cons.mp hd with hd | hd
      · subst hd; exact Bool.not_eq_true _ ▸ (by simpa using hc)
      · exact hcur d hd

/-- A joined line is empty exactly when the word list is empty. -/
theorem joinWords_isEmpty (cur : List Str) (hcur : ∀ w ∈ cur, wordOk w) :
    (joinWords cur).isEmpty = cur.isEmpty := by
  cases cur with
  | nil => rfl
  | cons a rest =>
    obtain ⟨c, cs, hj, _⟩ := joinWords_head_shape (a :: rest) (by simp) hcur
    rw [hj]
    rfl

/-- The reverse of a line extended by a space and a word starts with the
word's non-whitespace last character. -/
theorem reverse_shape_append (x w : Str) (hw : wordOk w) :
    ∃ d ds, (x ++ ' ' :: w).reverse = d :: ds ∧ isPySpace d = false := by
  obtain ⟨d, ds, hr, hd⟩ := reverse_shape hw
  refine ⟨d, ds ++ [' '] ++ x.reverse, ?_, hd⟩
  rw [List.reverse_append, List.reverse_cons, hr]
  simp

/-- The source's `(current + " " + word).strip()` equals the word list
joined with single spaces: stripping only ever removes the artificial
leading space of an empty current line. -/
theorem pyStrip_trial (cur : List Str) (word : Str)
    (hcur : ∀ w ∈ cur, wordOk w) (hword : wordOk word) :
    pyStrip (joinWords cur ++ [' '] ++ word) = joinWords (cur ++ [word]) := by
  cases cur with
  | nil =>
    show pyStrip ([] ++ [' '] ++ word) = joinWords [word]
    rw [List.nil_append, show ([' '] ++ word) = ' ' :: word from rfl,
      pyStrip_space_cons, pyStrip_of_noSpace hword.2]
    rfl
  | cons a rest =>
    obtain ⟨c, cs, hj, hc⟩ := joinWords_head_shape (a :: rest) (by simp) hcur
    have hrw : joinWords (a :: rest) ++ [' '] ++ word = joinWords (a :: rest) ++ (' ' :: word) := by
      rw [List.append_assoc]; rfl
    rw [hrw, joinWords_append_single (a :: rest) word (by simp)]
    apply pyStrip_noop
    · exact ⟨c, cs ++ ' ' :: word, by rw [hj]; rfl, hc⟩
    · exact reverse_shape_append _ _ hword

/-- The source wrap loop agrees step by step with the claim's greedy loop:
the loop state `current` of the source is the joined word list `cur` of the
claim's formulation. -/
theorem wrapAux_eq_claimAux : ∀ (words : List Str) (measure : Str → ℤ) (maxW : ℤ)
    (cur : List Str) (lines : List Str),
    (∀ w ∈ words, wordOk w) → (∀ w ∈ cur, wordOk w) →
    wrapAux measure maxW words (joinWords cur) lines =
      claimGreedyWrapAux measure maxW words cur lines := by
  intro words
  induction words with
  | nil =>
    intro measure maxW cur lines _ hcur
    simp only [wrapAux, claimGreedyWrapAux]
    rw [joinWords_isEmpty cur hcur]
  | cons word rest ih =>
    intro measure maxW cur lines hwords hcur
    have hword : wordOk word := hwords word (List.mem_cons_self _ _)
    have hrest : ∀ w ∈ rest, wordOk w := fun w hw => hwords w (List.mem_cons_of_mem _ hw)
    have hcur2 : ∀ w ∈ cur ++ [word], wordOk w := by
      intro w hw
      rcases List.mem_append.mp hw with hw | hw
      · exact hcur w hw
      · rw [List.mem_singleton] at hw; subst hw; exact hword
    have hone : ∀ w ∈ [word], wordOk w := by
      intro w hw; rw [List.mem_singleton] at hw; subst hw; exact hword
    simp only [wrapAux, claimGreedyWrapAux]
    rw [pyStrip_trial cur word hcur hword]
    rw [joinWords_isEmpty (cur ++ [word]) hcur2]
    rw [show (cur ++ [word]).isEmpty = false by simp]
    rw [if_neg (by simp)]
    by_cases hm : measure (joinWords (cur ++ [word])) ≤ maxW
    · rw [if_pos hm, if_pos hm]
      exact ih measure maxW (cur ++ [word]) lines hrest hcur2
    · rw [if_neg hm, if_neg hm]
      rw [joinWords_isEmpty cur hcur]
      by_cases hc : cur.isEmpty
      · rw [if_pos hc, if_pos hc]
        exact ih measure maxW [word] lines hrest hone
      · rw [if_neg hc, if_neg hc]
        exact ih measure maxW [word] (lines ++ [joinWords cur]) hrest hone

/- ----------------------------------------------------------------
Claim theorems.
---------------------------------------------------------------- -/

/-- Claim C1: the spec says `place_slot` applies the rounded-corner mask
using the four per-corner `radii` values whenever they are present, with
`radii` taking precedence over `radius`.  The code does the opposite:
`place_slot` calls `_round_corners(fitted, slot.radius)` and never reads
`slot.radii`, so the rendered output is invariant under any change of
`radii`; and since `_round_corners` with radius 0 is the identity, a slot
with `radius = 0` and nontrivial `radii` gets no rounding at all.  This
theorem evaluates the code side of that divergence. -/
theorem c1_radii_ignored :
    (∀ (α : Type) (ops : Ops α) (fs : Str → FileContent α) (base : α) (slot : Slot)
        (path : Str) (r₁ r₂ : Option (ℤ × ℤ × ℤ × ℤ)),
        place_slot ops fs base { slot with radii := r₁ } path =
          place_slot ops fs base { slot with radii := r₂ } path) ∧
    (∀ (α : Type) (ops : Ops α) (img : α), round_corners ops img 0 = img) := by
  constructor
  · intro α ops fs base slot path r₁ r₂
    rfl
  · intro α ops img
    rfl

/-- Claim C2: the spec says the linear-gradient position field projects each
pixel's offset from the canvas center onto the unit vector at
`gradient_angle` with 0 degrees meaning straight down, so an angle-0
gradient varies from the top edge to the bottom edge.  The code projects
onto `(cos a, sin a)`, which at angle 0 (cosine 1, sine 0 — the exact values
of `math.cos(0.0)` and `math.sin(0.0)`) is the rightward unit vector: on a
100x100 canvas the position field is constant down the central column and
differs between the left and right edge pixels of the central row.
`maxDist` is the value of `sqrt(w*w+h*h)/2` (about 70.7 here); any value of
at least 50 exhibits the divergence. -/
theorem c2_linear_angle_zero_is_horizontal : ∀ (maxDist : ℚ), 50 ≤ maxDist →
    (linearGradientPos 100 100 1 0 maxDist 50 0 = 1/2 ∧
     linearGradientPos 100 100 1 0 maxDist 50 99 = 1/2) ∧
    linearGradientPos 100 100 1 0 maxDist 0 50 ≠
      linearGradientPos 100 100 1 0 maxDist 99 50 := by
  intro m hm
  have hm0 : (0:ℚ) < m := by linarith
  have h50 : (50:ℚ)/m ≤ 1 := (div_le_one hm0).mpr (by linarith)
  have h50p : (0:ℚ) < 50/m := div_pos (by norm_num) hm0
  have h49 : (49:ℚ)/m ≤ 1 := (div_le_one hm0).mpr (by linarith)
  have h49p : (0:ℚ) < 49/m := div_pos (by norm_num) hm0
  constructor
  · constructor <;>
    · simp only [linearGradientPos, qclip01]
      norm_num
  · simp only [linearGradientPos, qclip01]
    norm_num
    rw [show (-50:ℚ)/m = -(50/m) from neg_div _ _]
    rw [min_eq_left (by linarith), max_eq_right (by linarith),
      min_eq_left (by linarith), max_eq_right (by linarith)]
    intro heq
    linarith

/-- Witness for C2 at the concrete `maxDist` value 71. -/
theorem c2_linear_angle_zero_witness :
    (50:ℚ) ≤ 71 ∧
    ((linearGradientPos 100 100 1 0 71 50 0 = 1/2 ∧
      linearGradientPos 100 100 1 0 71 50 99 = 1/2) ∧
     linearGradientPos 100 100 1 0 71 0 50 ≠ linearGradientPos 100 100 1 0 71 99 50) :=
  ⟨by norm_num, c2_linear_angle_zero_is_horizontal 71 (by norm_num)⟩

/-- Claim C3: the spec says each RGBA channel of a 2-stop gradient is the
linear interpolation between the stop values at parameter `p`, monotone in
`p` even for descending channels such as red going 255 to 0.  The code
computes the channel difference on numpy `uint8` scalars, which wraps
modulo 256: for stops red (255,0,0) at position 0 and blue (0,0,255) at
position 1, full opacity, the red channel evaluates to 255 at p = 1/4 and
p = 1/2 (the interpolation line demands about 191 and 127) and then jumps
to 0 at p = 1 — not a monotone interpolation.  The ascending blue channel
and the constant alpha channel are unaffected. -/
theorem c3_descending_channel_wraps :
    gradientPixelAt [("#ff0000".toList, 0), ("#0000ff".toList, 1)] 1 (1/4) =
      some (255, 0, 63, 255) ∧
    gradientPixelAt [("#ff0000".toList, 0), ("#0000ff".toList, 1)] 1 (1/2) =
      some (255, 0, 127, 255) ∧
    gradientPixelAt [("#ff0000".toList, 0), ("#0000ff".toList, 1)] 1 1 =
      some (0, 0, 255, 255) := by
  have hu1 : u8sub 0 255 = 1 := by decide
  have hu255 : u8sub 255 0 = 255 := by decide
  have hu0 : u8sub 0 0 = 0 := by decide
  have huA : u8sub 255 255 = 0 := by decide
  have hsort : sortStops [("#ff0000".toList, 0), ("#0000ff".toList, 1)] =
      [("#ff0000".toList, 0), ("#0000ff".toList, 1)] := by
    norm_num [sortStops, insertStopByPos]
  refine ⟨?_, ?_, ?_⟩
  · have hred : lerpChan 255 0 (1/4) = 255 := by
      simp only [lerpChan, hu1]; norm_num; omega
    have hblue : lerpChan 0 255 (1/4) = 63 := by
      simp only [lerpChan, hu255]; norm_num; omega
    have hzero : lerpChan 0 0 (1/4) = 0 := by
      simp only [lerpChan, hu0]; norm_num
    have halpha : lerpChan 255 255 (1/4) = 255 := by
      simp only [lerpChan, huA]; norm_num; omega
    have ht : qclip01 (((1:ℚ)/4 - 0) / (1 - 0)) = 1/4 := by norm_num [qclip01]
    have hq : qclip01 ((1:ℚ)/4) = 1/4 := by norm_num [qclip01]
    simp only [gradientPixelAt, hsort, applyStopPairs, hex_red_eval, hex_blue_eval]
    norm_num [ht, hq, lerpPx, hred, hblue, hzero, halpha, applyStopPairs]
  · have hred : lerpChan 255 0 (1/2) = 255 := by
      simp only [lerpChan, hu1]; norm_num; omega
    have hblue : lerpChan 0 255 (1/2) = 127 := by
      simp only [lerpChan, hu255]; norm_num; omega
    have hzero : lerpChan 0 0 (1/2) = 0 := by
      simp only [lerpChan, hu0]; norm_num
    have halpha : lerpChan 255 255 (1/2) = 255 := by
      simp only [lerpChan, huA]; norm_num; omega
    have ht : qclip01 (((1:ℚ)/2 - 0) / (1 - 0)) = 1/2 := by norm_num [qclip01]
    have hq : qclip01 ((1:ℚ)/2) = 1/2 := by norm_num [qclip01]
    simp only [gradientPixelAt, hsort, applyStopPairs, hex_red_eval, hex_blue_eval]
    norm_num [ht, hq, lerpPx, hred, hblue, hzero, halpha, applyStopPairs]
  · have hred : lerpChan 255 0 1 = 0 := by
      simp only [lerpChan, hu1]; norm_num; omega
    have hblue : lerpChan 0 255 1 = 255 := by
      simp only [lerpChan, hu255]; norm_num; omega
    have hzero : lerpChan 0 0 1 = 0 := by
      simp only [lerpChan, hu0]; norm_num
    have halpha : lerpChan 255 255 1 = 255 := by
      simp only [lerpChan, huA]; norm_num; omega
    have ht : qclip01 (((1:ℚ) - 0) / (1 - 0)) = 1 := by norm_num [qclip01]
    have hq : qclip01 (1:ℚ) = 1 := by norm_num [qclip01]
    simp only [gradientPixelAt, hsort, applyStopPairs, hex_red_eval, hex_blue_eval]
    norm_num [ht, hq, lerpPx, hred, hblue, hzero, halpha, applyStopPairs]

/-- Claim C4, counterexample: the claim says that for a slot path naming an
existing but undecodable image file the slot is skipped and `compose_cover`
still returns a finished raster.  On a template with one slot bound to such
a file, the embedded `compose_cover` raises instead (`Image.open` on the
existing file is not wrapped in try/except). -/
theorem c4_undecodable_slot_raises :
    compose_cover unitOps fsUnreadableA riOneSlot tplOneSlot = Except.error () := rfl

/-- Claim C4, amended: a missing slot content file leaves the canvas
untouched; an unreadable `background_path` override silently falls back to
the same result as no override; but an existing-yet-undecodable slot
content file raises out of `place_slot`, and an existing-yet-undecodable
template background image raises out of `apply_background`. -/
theorem c4_silent_fallback_scope : ∀ (α : Type) (ops : Ops α) (fs : Str → FileContent α)
    (base : α) (slot : Slot) (path : Str) (tpl : TemplateDefinition) (p : Str),
    (fs path = FileContent.missing → place_slot ops fs base slot path = Except.ok base) ∧
    (fs path = FileContent.unreadable → place_slot ops fs base slot path = Except.error ()) ∧
    (fs p = FileContent.unreadable →
      apply_background ops fs tpl (some p) = apply_background ops fs tpl none) ∧
    (tpl.background.kind = "image".toList → ¬tpl.background.value.isEmpty →
      fs tpl.background.value = FileContent.unreadable →
      apply_background ops fs tpl none = Except.error ()) := by
  intro α ops fs base slot path tpl p
  refine ⟨?_, ?_, ?_, ?_⟩
  · intro h
    unfold place_slot
    rw [h]
  · intro h
    unfold place_slot
    rw [h]
  · intro h
    unfold apply_background
    cases hb : backgroundBase ops tpl with
    | error e => rfl
    | ok img =>
      dsimp only
      by_cases hp : pyTruthyStr (some p)
      · rw [if_pos hp]
        simp only [Option.getD_some]
        rw [h, if_neg (show ¬ pyTruthyStr none = true by simp [pyTruthyStr])]
      · rw [if_neg hp, if_neg (show ¬ pyTruthyStr none = true by simp [pyTruthyStr])]
  · intro hkind hval h
    unfold apply_background
    have hbase : backgroundBase ops tpl =
        Except.ok (ops.newCanvas tpl.size.1 tpl.size.2 (255, 255, 255, 255)) := by
      unfold backgroundBase
      rw [if_neg (by rw [hkind]; decide), if_neg (by rw [hkind]; decide)]
    rw [hbase]
    dsimp only
    rw [if_neg (show ¬ pyTruthyStr none = true by simp [pyTruthyStr])]
    unfold templateImageOverlay
    rw [if_pos ⟨hkind, hval⟩, h]

/-- Witness for C4's amended statement at concrete inputs: a missing file is
skipped, an unreadable slot file raises, an unreadable background override
is a no-op, and an unreadable template background image raises. -/
theorem c4_silent_fallback_scope_witness :
    place_slot unitOps fsEmpty () slotPlain "a.png".toList = Except.ok () ∧
    place_slot unitOps fsUnreadableA () slotPlain "a.png".toList = Except.error () ∧
    apply_background unitOps fsUnreadableA tplOneSlot (some "a.png".toList) =
      apply_background unitOps fsUnreadableA tplOneSlot none ∧
    apply_background unitOps fsUnreadableA tplImageBg none = Except.error () := by
  refine ⟨?_, ?_, ?_, ?_⟩
  · exact (c4_silent_fallback_scope Unit unitOps fsEmpty () slotPlain "a.png".toList
      tplOneSlot "a.png".toList).1 rfl
  · exact (c4_silent_fallback_scope Unit unitOps fsUnreadableA () slotPlain "a.png".toList
      tplOneSlot "a.png".toList).2.1 rfl
  · exact (c4_silent_fallback_scope Unit unitOps fsUnreadableA () slotPlain "a.png".toList
      tplOneSlot "a.png".toList).2.2.1 rfl
  · exact (c4_silent_fallback_scope Unit unitOps fsUnreadableA () slotPlain "a.png".toList
      tplImageBg "a.png".toList).2.2.2 rfl (by decide) rfl

/-- Claim C5: the spec says a `fit=cover` call always returns exactly the
target size with no transparent padding, even accounting for the float
scale computation and truncation.  The truncation can undershoot: for a
98x98 source covered to a 2x1 target, `2/98` rounds to a binary64 slightly
below the exact ratio, `int(98 * scale)` truncates `1.9999999999999998` to
1, and the centered crop starts at `x = -1`, so one output column is
transparent padding.  (The output size itself still equals the target,
since PIL's `crop` always returns the requested box.) -/
theorem c5_cover_truncation_gap :
    resizeFitCoverCalc 98 98 2 1 "center".toList "center".toList =
      ⟨1, 1, -1, 0⟩ ∧
    ¬ coverCropInBounds (resizeFitCoverCalc 98 98 2 1 "center".toList "center".toList) 2 1 := by
  exact ⟨by decide, by decide⟩

/-- Claim C6, counterexample: the claim computes the effective wrap width as
"max_width when set, otherwise the box width", but Python's
`max_width or w` also falls back to the box width when `max_width == 0`.
With `max_width = 0`, box width 10 and a character-count measure, the code
wraps "ab cd" into the single line "ab cd" (width 5, at most 10), while the
claim's greedy wrap at width 0 yields the two lines "ab" and "cd". -/
theorem c6_zero_max_width_counterexample :
    wrapLines lenMeasure (effectiveMaxWidth (some 0) 10) "ab cd".toList = ["ab cd".toList] ∧
    claimGreedyWrap lenMeasure (claimMaxWidth (some 0) 10) "ab cd".toList =
      ["ab".toList, "cd".toList] ∧
    (["ab cd".toList] : List Str) ≠ ["ab".toList, "cd".toList] := by
  refine ⟨by decide, by decide, by decide⟩

/-- Claim C6, amended: with the effective wrap width computed as the code
computes it (`max_width or w`: the box width when `max_width` is unset or
zero), the source wrap is exactly the claim's greedy word-wrap for every
content string and every width measure, and an empty content string yields
exactly one empty line (both sides return `[""]`). -/
theorem c6_greedy_wrap_amended : ∀ (measure : Str → ℤ) (mw : Option ℤ) (w : ℤ) (content : Str),
    wrapLines measure (effectiveMaxWidth mw w) content =
      claimGreedyWrap measure (effectiveMaxWidth mw w) content := by
  intro measure mw w content
  unfold wrapLines claimGreedyWrap
  have h : wrapAux measure (effectiveMaxWidth mw w) (pySplit content) [] [] =
      claimGreedyWrapAux measure (effectiveMaxWidth mw w) (pySplit content) [] [] :=
    wrapAux_eq_claimAux (pySplit content) measure (effectiveMaxWidth mw w) [] []
      (pySplitAux_words content [] (by simp)) (by simp)
  rw [h]

/-- Claim C7, counterexample: the claim says the tilt angles are clamped to
the open interval (-89, 89); the code clamps with
`max(-89.0, min(89.0, angle))`, which maps an input of 100 degrees to
exactly 89, a value outside the open interval. -/
theorem c7_clamp_not_open : ¬ (-89 < clampAngle 100 ∧ clampAngle 100 < 89) := by
  have h : clampAngle 100 = 89 := by norm_num [clampAngle]
  rw [h]
  norm_num

/-- Claim C7, amended: `rotate_x` and `rotate_y` are clamped to the closed
interval [-89, 89], and the perspective divide is total: every one of the
four projection denominators (after the epsilon fixup) is nonzero, with
magnitude at least the epsilon, for all sizes, angles, camera factors and
values of the external trigonometric functions; the projection always
yields exactly 4 points. -/
theorem c7_projection_total : ∀ (trig : TrigOps) (w h : ℤ) (rx ry rz k : ℚ),
    (-89 ≤ clampAngle rx ∧ clampAngle rx ≤ 89) ∧
    (-89 ≤ clampAngle ry ∧ clampAngle ry ≤ 89) ∧
    (project_slot_quad trig w h rx ry rz k).length = 4 ∧
    ∀ q ∈ quadDenoms trig w h rx ry rz k, q ≠ 0 ∧ projEps ≤ |q| := by
  intro trig w h rx ry rz k
  refine ⟨⟨le_max_left _ _, max_le (by norm_num) (min_le_left _ _)⟩,
    ⟨le_max_left _ _, max_le (by norm_num) (min_le_left _ _)⟩, ?_, ?_⟩
  · simp [project_slot_quad, rotatedCorners]
  · intro q hq
    simp only [quadDenoms, List.mem_map] at hq
    obtain ⟨p, _, rfl⟩ := hq
    exact projDenomFix_ne _ _

/-- Witness for C7 at concrete inputs (identity trigonometry, 2x2 slot,
angle 100 for the clamp, camera factor 0): the first denominator is 1. -/
theorem c7_projection_total_witness :
    ((1:ℚ) ≠ 0 ∧ projEps ≤ |(1:ℚ)|) ∧
    (-89 ≤ clampAngle 100 ∧ clampAngle 100 ≤ 89) := by
  constructor
  · have h := (c7_projection_total unitTrig 2 2 0 0 0 0).2.2.2
    have hm : (1:ℚ) ∈ quadDenoms unitTrig 2 2 0 0 0 0 := by
      rw [quadDenoms_unit_eval]
      exact List.mem_cons_self _ _
    exact h 1 hm
  · exact (c7_projection_total unitTrig 2 2 100 0 0 0).1

/-- Claim C8: `compose_cover` mutates neither of its inputs; a per-text
colour override is applied to a deep copy, so after the call the template's
text-block objects are unchanged.  In the embedding the text loop runs over
an explicit object store initialised with the template's blocks, and a
deep copy appends a fresh object; the theorem states that the initial
store segment — the template's own objects — survives `compose_cover`
unchanged, and that the drawn copy differs from the original block in the
`style.color` field only. -/
theorem c8_inputs_not_mutated :
    (∀ (α : Type) (ops : Ops α) (fs : Str → FileContent α)
      (ri : RenderInput) (tpl : TemplateDefinition) (out : α × List TextBlock),
      compose_cover ops fs ri tpl = Except.ok out →
      out.2.take tpl.texts.length = tpl.texts) ∧
    (∀ (text : TextBlock) (ov : Option Str),
      (effectiveTextBlock text ov).key = text.key ∧
      (effectiveTextBlock text ov).box = text.box ∧
      { (effectiveTextBlock text ov).style with color := text.style.color } = text.style) := by
  constructor
  · intro α ops fs ri tpl out h
    unfold compose_cover at h
    split at h
    · exact absurd h (by simp)
    · split at h
      · exact absurd h (by simp)
      · rename_i base base2 heq
        simp only [Except.ok.injEq] at h
        subst h
        obtain ⟨ext, hext⟩ := composeTextsAux_extends α ops ri.texts ri.text_colors
          (List.range tpl.texts.length) base2 tpl.texts
        simp only [composeTexts]
        rw [hext]
        exact List.take_left _ _
  · intro text ov
    unfold effectiveTextBlock
    split
    · exact ⟨rfl, rfl, rfl⟩
    · exact ⟨rfl, rfl, rfl⟩

/-- Witness for C8: a concrete successful render with one text block and an
applied colour override keeps the template's block as the store's first
entry. -/
theorem c8_inputs_not_mutated_witness :
    (((), [textBlockTitle, effectiveTextBlock textBlockTitle (some " #ff0000 ".toList)]) :
        Unit × List TextBlock).2.take tplOneText.texts.length = tplOneText.texts :=
  c8_inputs_not_mutated.1 Unit unitOps fsEmpty riOneText tplOneText
    ((), [textBlockTitle, effectiveTextBlock textBlockTitle (some " #ff0000 ".toList)]) (by rfl)

/-- Claim C9: a per-text colour override is applied exactly when the bound
override value is a string whose whitespace-stripped form starts with '#',
in which case the drawn block is the template block with `style.color`
replaced by the stripped override; any other override (missing, empty, or
not starting with '#') is silently ignored and the template block is drawn
unchanged. -/
theorem c9_override_condition : ∀ (text : TextBlock) (ov : Option Str),
    ((∃ s, ov = some s ∧ (pyStrip s).head? = some '#') →
      effectiveTextBlock text ov =
        { text with style := { text.style with color := pyStrip (ov.getD []) } }) ∧
    (¬ (∃ s, ov = some s ∧ (pyStrip s).head? = some '#') →
      effectiveTextBlock text ov = text) := by
  intro text ov
  constructor
  · intro hex
    have h := (overrideApplies_iff ov).mpr hex
    unfold effectiveTextBlock
    rw [h, if_pos rfl]
  · intro hnex
    have h : overrideApplies ov = false := by
      cases hb : overrideApplies ov with
      | false => rfl
      | true => exact absurd ((overrideApplies_iff ov).mp hb) hnex
    unfold effectiveTextBlock
    rw [h]
    simp

/-- Witness for C9: the override " #ff0000 " (stripped: "#ff0000") is
applied; the override "red" is ignored and the block drawn unchanged. -/
theorem c9_override_condition_witness :
    effectiveTextBlock textBlockTitle (some " #ff0000 ".toList) =
      { textBlockTitle with style := { textBlockTitle.style with
          color := pyStrip ((some " #ff0000 ".toList).getD []) } } ∧
    effectiveTextBlock textBlockTitle (some "red".toList) = textBlockTitle := by
  constructor
  · exact (c9_override_condition textBlockTitle (some " #ff0000 ".toList)).1
      ⟨" #ff0000 ".toList, rfl, by decide⟩
  · refine (c9_override_condition textBlockTitle (some "red".toList)).2 ?_
    rintro ⟨s, hs, hh⟩
    have := Option.some.inj hs
    subst this
    exact absurd hh (by decide)

/-- Claim C10, counterexample: the claim predicts the white fallback
whenever the string minus one leading '#' is not 6 characters long, but the
code strips all leading '#' characters: "##00ff00" still parses as the
colour green rather than falling back to white. -/
theorem c10_double_hash_counterexample :
    (claimDropLeadingHash "##00ff00".toList).length ≠ 6 ∧
    ImageColor_get "##00ff00".toList 1 = some (0, 255, 0, 255) ∧
    ((0, 255, 0, 255) : ℕ × ℕ × ℕ × ℕ) ≠ (255, 255, 255, 255) := by
  refine ⟨by decide, by decide, by decide⟩

/-- Claim C10, amended: when the string after removing all leading '#'
characters does not have exactly 6 characters, both hex parsers fall back
to white; in every non-raising case the alpha channel is
`int(255 * max(0, min(opacity, 1)))` with the product computed in binary64,
exactly as CPython evaluates it; and the gradient-stop parser is the same
function as the solid-fill parser. -/
theorem c10_hex_fallback_amended : ∀ (s : Str) (opacity : F64),
    ((pyLstripHash s).length ≠ 6 →
      ImageColor_get s opacity = some (255, 255, 255, alphaOfOpacity opacity)) ∧
    (∀ r g b a, ImageColor_get s opacity = some (r, g, b, a) → a = alphaOfOpacity opacity) ∧
    hex_to_rgba s opacity = ImageColor_get s opacity := by
  intro s opacity
  refine ⟨?_, ?_, rfl⟩
  · intro hlen
    simp only [ImageColor_get]
    split
    · rename_i c₁ c₂ c₃ c₄ c₅ c₆ heq
      rw [heq] at hlen
      simp at hlen
    · rfl
  · intro r g b a
    simp only [ImageColor_get]
    split
    · split
      · intro h
        simp only [Option.some.injEq, Prod.mk.injEq] at h
        exact h.2.2.2.symm
      · intro h
        simp at h
    · intro h
      simp only [Option.some.injEq, Prod.mk.injEq] at h
      exact h.2.2.2.symm

/-- Witness for C10 at the binary64 value of 0.6 (mantissa
5404319552844595, exponent -53): the 3-digit string "#fff" falls back to
white, and the alpha is 153 — the product 255 * 0.6 rounds up to exactly
153.0 in binary64 before truncation, matching CPython (`int(255*0.6)` is
153, although the exact rational product is below 153).  At the exactly
representable opacity 0.5 the alpha is the unrounded truncation 127. -/
theorem c10_hex_fallback_amended_witness :
    ImageColor_get "#fff".toList ⟨5404319552844595, -53⟩ =
      some (255, 255, 255, alphaOfOpacity ⟨5404319552844595, -53⟩) ∧
    alphaOfOpacity ⟨5404319552844595, -53⟩ = 153 ∧
    alphaOfOpacity ⟨1, -1⟩ = 127 := by
  refine ⟨(c10_hex_fallback_amended "#fff".toList ⟨5404319552844595, -53⟩).1 (by decide),
    by decide, by decide⟩
